import Mathlib

/-!
Verification of the Structural Alignment and Scoring Engine of the
Databank_Creation repository.

The embedding covers:
  - the pdbqt positional-counter extraction `parse_pdbqt`
    (src/Affinity_RMSD_caculate/RMSD_Q.py lines 75-102 and the textually
    identical copy in RMSD_af.py lines 70-97);
  - the windowed extraction `parse_real_pdb`
    (RMSD_Q.py lines 104-122, RMSD_af.py lines 99-117) and
    `extract_ca_atoms` (src/Dataset_info/vis_protein_rmsd/vis_rmde.py
    lines 56-69);
  - the guard of `compute_rmsd` (RMSD_Q.py lines 124-147, RMSD_af.py
    lines 119-140);
  - a spec-level model of the Bio.PDB Superimposer (Kabsch) core, which
    is library code outside this repository.

Modelling conventions: a text line of a pdbqt file is abstracted to the
facts the source inspects about it: whether the stripped line starts with
ATOM, whether it contains the token CA surrounded by spaces, and the
result of float() on each whitespace-separated field (a field that
float() rejects is recorded as `none`).  Coordinates are rationals for
the parsing layer and real vectors for the numerical engine.
-/

/-- A parsed coordinate triple, as produced by the pdbqt parsing code. -/
abbrev Coord : Type := ℚ × ℚ × ℚ

/-- Abstraction of one stripped text line of a pdbqt file, recording
exactly the observations the source code makes: the startswith ATOM
test, the containment test for the CA token, and the float() outcome of
each whitespace-separated field (`none` marks a field float() rejects). -/
structure PLine : Type where
  startsWithATOM : Bool
  containsCA : Bool
  fields : List (Option ℚ)
deriving DecidableEq

/-- The coordinate a line contributes, when it does: the line must pass
the ATOM and CA tests and fields 6, 7, 8 must exist and parse as
numbers.  This is the claim-side characterisation of a valid CA entry. -/
def lineCoord (l : PLine) : Option Coord :=
  if l.startsWithATOM && l.containsCA then
    match l.fields[6]?, l.fields[7]?, l.fields[8]? with
    | some (some x), some (some y), some (some z) => some (x, y, z)
    | _, _, _ => none
  else none

/-- Loop body of parse_pdbqt in RMSD_Q.py (lines 82-101): skip lines not
starting with ATOM, skip lines without the CA token, skip lines whose
fields 6, 7, 8 are missing or fail float(), otherwise append the triple,
increment the counter, and break once the counter reaches the requested
length.  The check happens after the append, as in the source. -/
def RMSDQ.parse_pdbqt_go : List PLine → Nat → Nat → List Coord
  | [], _, _ => []
  | l :: rest, count, len =>
    if l.startsWithATOM = false then RMSDQ.parse_pdbqt_go rest count len
    else if l.containsCA = false then RMSDQ.parse_pdbqt_go rest count len
    else
      match l.fields[6]?, l.fields[7]?, l.fields[8]? with
      | some (some x), some (some y), some (some z) =>
        if count + 1 ≥ len then [(x, y, z)]
        else (x, y, z) :: RMSDQ.parse_pdbqt_go rest (count + 1) len
      | _, _, _ => RMSDQ.parse_pdbqt_go rest count len

/-- parse_pdbqt of RMSD_Q.py: scan the lines with the counter starting
at zero. -/
def RMSDQ.parse_pdbqt (lines : List PLine) (len : Nat) : List Coord :=
  RMSDQ.parse_pdbqt_go lines 0 len

/-- Loop body of parse_pdbqt in RMSD_af.py (lines 77-96), textually
identical to the copy in RMSD_Q.py. -/
def RMSDaf.parse_pdbqt_go : List PLine → Nat → Nat → List Coord
  | [], _, _ => []
  | l :: rest, count, len =>
    if l.startsWithATOM = false then RMSDaf.parse_pdbqt_go rest count len
    else if l.containsCA = false then RMSDaf.parse_pdbqt_go rest count len
    else
      match l.fields[6]?, l.fields[7]?, l.fields[8]? with
      | some (some x), some (some y), some (some z) =>
        if count + 1 ≥ len then [(x, y, z)]
        else (x, y, z) :: RMSDaf.parse_pdbqt_go rest (count + 1) len
      | _, _, _ => RMSDaf.parse_pdbqt_go rest count len

/-- parse_pdbqt of RMSD_af.py. -/
def RMSDaf.parse_pdbqt (lines : List PLine) (len : Nat) : List Coord :=
  RMSDaf.parse_pdbqt_go lines 0 len

/-- A residue as consumed by the extraction code: the numeric part of
the Bio.PDB residue id, plus the atoms keyed by atom name. -/
structure Residue : Type where
  seqNum : Int
  atoms : List (String × Coord)
deriving DecidableEq

/-- Lookup of the CA atom of a residue, modelling the membership test
and the child access residue bracket CA of Bio.PDB. -/
def Residue.ca (r : Residue) : Option Coord :=
  r.atoms.lookup "CA"

/-- A chain: identifier plus residues in file order. -/
structure Chain : Type where
  id : String
  residues : List Residue
deriving DecidableEq

/-- A model is a list of chains; a structure is a list of models. -/
abbrev ModelT : Type := List Chain

/-- A parsed structure, as a list of models in file order. -/
abbrev StructureT : Type := List ModelT

/-- Inner residue loop shared verbatim by parse_real_pdb (RMSD_Q.py
lines 116-121, RMSD_af.py lines 111-116) and extract_ca_atoms
(vis_rmde.py lines 64-68): keep the CA position of each residue whose
number lies in the inclusive window, in iteration order, silently
skipping residues without a CA atom. -/
def chain_window_go : List Residue → Int → Int → List Coord
  | [], _, _ => []
  | r :: rs, a, b =>
    if a ≤ r.seqNum ∧ r.seqNum ≤ b then
      match r.ca with
      | some c => c :: chain_window_go rs a b
      | none => chain_window_go rs a b
    else chain_window_go rs a b

/-- Chain loop of parse_real_pdb: every chain whose id matches
contributes its windowed coordinates to the shared output list. -/
def parse_real_pdb_chains : List Chain → String → Int → Int → List Coord
  | [], _, _, _ => []
  | c :: cs, cid, a, b =>
    (if c.id = cid then chain_window_go c.residues a b else []) ++
      parse_real_pdb_chains cs cid a b

/-- parse_real_pdb of RMSD_Q.py (lines 104-122): the outer loop runs
over every model of the structure, appending into one output list. -/
def RMSDQ.parse_real_pdb : StructureT → String → Int → Int → List Coord
  | [], _, _, _ => []
  | m :: ms, cid, a, b =>
    parse_real_pdb_chains m cid a b ++ RMSDQ.parse_real_pdb ms cid a b

/-- Chain access by identifier in a model, modelling the Bio.PDB child
lookup model bracket chain_id used by extract_ca_atoms. -/
def find_chain (m : ModelT) (cid : String) : Option Chain :=
  m.find? (fun c => c.id == cid)

/-- Failure outcomes of extract_ca_atoms: a missing chain raises a
lookup error (the ChainNotFound outcome of the spec); an empty structure
makes the first-model access fail. -/
inductive ExtractErr : Type where
  | chainNotFound : ExtractErr
  | noModel : ExtractErr
deriving DecidableEq

/-- extract_ca_atoms of vis_rmde.py (lines 56-69): take the first model
only, look the chain up by id (failing loudly when absent), then run the
windowed residue loop. -/
def extract_ca_atoms (s : StructureT) (cid : String) (a b : Int) :
    Except ExtractErr (List Coord) :=
  match s with
  | [] => .error .noModel
  | m :: _ =>
    match find_chain m cid with
    | none => .error .chainNotFound
    | some c => .ok (chain_window_go c.residues a b)

/-- A point of the numerical engine: a real 3-vector. -/
abbrev EPoint : Type := Fin 3 → ℝ

/-- A real 3 by 3 matrix. -/
abbrev Mat3 : Type := Matrix (Fin 3) (Fin 3) ℝ

/-- Centroid of a list of points (coordinatewise mean). -/
noncomputable def centroid (l : List EPoint) : EPoint :=
  fun j => (l.map fun p => p j).sum / l.length

/-- The list translated so that its centroid is the origin (step 1 of
the Kabsch algorithm in the spec). -/
noncomputable def centered (l : List EPoint) : List EPoint :=
  l.map fun p => p - centroid l

/-- Squared euclidean norm of a 3-vector. -/
noncomputable def sqnorm (v : EPoint) : ℝ :=
  ∑ j, (v j) ^ 2

/-- Mean squared deviation of the centered reference from the rotated
centered candidate, the quantity inside the square root of step 7 of
the Kabsch algorithm in the spec. -/
noncomputable def msd (R : Mat3) (ref cand : List EPoint) : ℝ :=
  (((centered ref).zip (centered cand)).map fun pq =>
      sqnorm (pq.1 - R.mulVec pq.2)).sum / ref.length

/-- A proper rotation: orthonormal with determinant one. -/
def IsProperRot (R : Mat3) : Prop :=
  R.transpose * R = 1 ∧ R.det = 1

/-- Modelled from the spec: Bio.PDB.Superimposer is library code, not
part of this repository; per section 4.2 of the spec it returns the
RMSD after the optimal proper-rotation superposition, modelled here as
the square root of the infimum of the centered mean squared deviation
over all proper rotations. -/
noncomputable def superimposerRms (ref cand : List EPoint) : ℝ :=
  Real.sqrt (sInf {x : ℝ | ∃ R : Mat3, IsProperRot R ∧ x = msd R ref cand})

/-- compute_rmsd of RMSD_Q.py (lines 124-147): return the no-result
sentinel when the lengths differ or the reference is empty, else wrap
the coordinates and delegate to the Superimposer. -/
noncomputable def RMSDQ.compute_rmsd (ref_atoms alt_atoms : List EPoint) :
    Option ℝ :=
  if ref_atoms.length ≠ alt_atoms.length ∨ ref_atoms.length = 0 then none
  else some (superimposerRms ref_atoms alt_atoms)

/-- compute_rmsd of RMSD_af.py (lines 119-140), textually identical to
the copy in RMSD_Q.py and delegating to the same library routine. -/
noncomputable def RMSDaf.compute_rmsd (ref_coords alt_coords : List EPoint) :
    Option ℝ :=
  if ref_coords.length ≠ alt_coords.length ∨ ref_coords.length = 0 then none
  else some (superimposerRms ref_coords alt_coords)

/-- Modelled from the spec: the determinant-sign correction factor of
step 4 of the Kabsch algorithm, computed from the SVD factors U and V
of the covariance matrix (the SVD itself is inside the Bio.PDB library,
outside this repository). -/
noncomputable def kabsch_d (U V : Mat3) : ℝ :=
  if (V * U.transpose).det < 0 then -1 else 1

/-- Modelled from the spec: the corrected rotation of step 5,
R = V diag(1,1,d) Ut. -/
noncomputable def kabsch_rotation (U V : Mat3) : Mat3 :=
  V * Matrix.diagonal ![1, 1, kabsch_d U V] * U.transpose

/-- Application of a rigid transform to one point: rotate, then
translate (steps 6 and 8 of the spec algorithm). -/
noncomputable def applyRT (R : Mat3) (t : EPoint) (p : EPoint) : EPoint :=
  R.mulVec p + t

/-- Modelled from the spec: the alignment result for a single point
pair; section 4.2 pins it to the identity rotation with translation
reference minus candidate. -/
noncomputable def align_n1 (r c : EPoint) : Mat3 × EPoint :=
  (1, r - c)

/-- The sup.apply step of vis_rmde.py main (line 125): Superimposer
apply installs the transformed coordinates into every atom of the
predicted structure, modelled as the new coordinate state of the
structure after the call. -/
noncomputable def sup_apply (Rt : Mat3 × EPoint) (atoms : List EPoint) :
    List EPoint :=
  atoms.map (applyRT Rt.1 Rt.2)

/-- The alignment step of vis_rmde.py main for a single CA pair: the
coordinate state of the predicted structure after set_atoms followed by
apply, as a function of the state before. -/
noncomputable def vis_align_apply_n1 (refCA candCA : EPoint)
    (predAtoms : List EPoint) : List EPoint :=
  sup_apply (align_n1 refCA candCA) predAtoms

/-- A sample well-formed CA line: passes the ATOM and CA tests and has
parseable fields at indices 6, 7, 8. -/
def sampleCALine : PLine :=
  ⟨true, true, [none, none, none, none, none, none, some 1, some 2, some 3]⟩

/-- A sample malformed CA line: passes the ATOM and CA tests but has
only two whitespace-separated fields. -/
def shortCALine : PLine :=
  ⟨true, true, [some 1, some 2]⟩

/-- The origin point. -/
def pZero : EPoint := fun _ => 0

/-- The point with all coordinates five. -/
def pFive : EPoint := fun _ => 5

/-- One step of the parse_pdbqt loop, re-expressed through lineCoord:
a line contributing no coordinate is skipped with the counter
unchanged; a contributing line is appended, and the loop stops when the
counter reaches the requested length. -/
theorem RMSDQ.parse_go_cons (l : PLine) (rest : List PLine) (count n : Nat) :
    RMSDQ.parse_pdbqt_go (l :: rest) count n =
      match lineCoord l with
      | none => RMSDQ.parse_pdbqt_go rest count n
      | some c =>
          if count + 1 ≥ n then [c]
          else c :: RMSDQ.parse_pdbqt_go rest (count + 1) n := by
  by_cases hA : l.startsWithATOM
  · by_cases hC : l.containsCA
    · rcases h6 : l.fields[6]? with _ | (_ | x)
      · simp [RMSDQ.parse_pdbqt_go, lineCoord, hA, hC, h6]
      · simp [RMSDQ.parse_pdbqt_go, lineCoord, hA, hC, h6]
      · rcases h7 : l.fields[7]? with _ | (_ | y)
        · simp [RMSDQ.parse_pdbqt_go, lineCoord, hA, hC, h6, h7]
        · simp [RMSDQ.parse_pdbqt_go, lineCoord, hA, hC, h6, h7]
        · rcases h8 : l.fields[8]? with _ | (_ | z)
          · simp [RMSDQ.parse_pdbqt_go, lineCoord, hA, hC, h6, h7, h8]
          · simp [RMSDQ.parse_pdbqt_go, lineCoord, hA, hC, h6, h7, h8]
          · simp [RMSDQ.parse_pdbqt_go, lineCoord, hA, hC, h6, h7, h8]
    · simp [RMSDQ.parse_pdbqt_go, lineCoord, hA, hC]
  · simp [RMSDQ.parse_pdbqt_go, lineCoord, hA]

/-- A line contributing no coordinate is skipped with the counter
unchanged. -/
theorem RMSDQ.parse_go_cons_none {l : PLine} (rest : List PLine)
    (count n : Nat) (hc : lineCoord l = none) :
    RMSDQ.parse_pdbqt_go (l :: rest) count n =
      RMSDQ.parse_pdbqt_go rest count n := by
  rw [RMSDQ.parse_go_cons, hc]

/-- A contributing line is appended and the loop stops once the counter
reaches the requested length. -/
theorem RMSDQ.parse_go_cons_some {l : PLine} {c : Coord} (rest : List PLine)
    (count n : Nat) (hc : lineCoord l = some c) :
    RMSDQ.parse_pdbqt_go (l :: rest) count n =
      if count + 1 ≥ n then [c]
      else c :: RMSDQ.parse_pdbqt_go rest (count + 1) n := by
  rw [RMSDQ.parse_go_cons, hc]

/-- While the counter is below the requested length, the loop returns
the prefix of the valid CA coordinates of the remaining lines, of
length at most the distance to the limit. -/
theorem RMSDQ.parse_go_take (n : Nat) :
    ∀ (lines : List PLine) (count : Nat), count < n →
    RMSDQ.parse_pdbqt_go lines count n =
      (lines.filterMap lineCoord).take (n - count) := by
  intro lines
  induction lines with
  | nil => intro count h; simp [RMSDQ.parse_pdbqt_go]
  | cons l rest ih =>
    intro count h
    cases hc : lineCoord l with
    | none =>
      rw [RMSDQ.parse_go_cons_none rest count n hc,
        List.filterMap_cons_none hc]
      exact ih count h
    | some c =>
      rw [RMSDQ.parse_go_cons_some rest count n hc,
        List.filterMap_cons_some hc]
      by_cases hge : count + 1 ≥ n
      · have h1 : n - count = 1 := by omega
        rw [if_pos hge, h1]
        simp
      · rw [if_neg hge]
        have h2 : count + 1 < n := by omega
        have h3 : n - count = (n - (count + 1)) + 1 := by omega
        rw [ih (count + 1) h2, h3, List.take_succ_cons]

/-- C3: the positional-counter extraction returns the first N valid CA
entries in file order and its output length is min of N and the number
of such entries — amended: this holds for every requested length N at
least 1; for N = 0 the stop check, which runs only after an append,
still lets the first valid CA entry through. -/
theorem C3_parse_pdbqt_first_n (lines : List PLine) (n : Nat) (hn : 1 ≤ n) :
    RMSDQ.parse_pdbqt lines n = (lines.filterMap lineCoord).take n ∧
    (RMSDQ.parse_pdbqt lines n).length =
      min n (lines.filterMap lineCoord).length := by
  have h := RMSDQ.parse_go_take n lines 0 (by omega)
  rw [Nat.sub_zero] at h
  refine ⟨h, ?_⟩
  rw [RMSDQ.parse_pdbqt, h, List.length_take]

/-- Witness for C3 at a concrete input: one valid CA line, requested
length two. -/
theorem C3_witness :
    RMSDQ.parse_pdbqt [sampleCALine] 2 =
      (([sampleCALine] : List PLine).filterMap lineCoord).take 2 ∧
    (RMSDQ.parse_pdbqt [sampleCALine] 2).length =
      min 2 (([sampleCALine] : List PLine).filterMap lineCoord).length :=
  C3_parse_pdbqt_first_n [sampleCALine] 2 (by decide)

/-- Counterexample to C3 as stated: with requested length 0 the parser
still returns the first valid CA coordinate, so the output length is 1
rather than min 0 1 = 0. -/
theorem C3_counterexample :
    RMSDQ.parse_pdbqt [sampleCALine] 0 = [(1, 2, 3)] ∧
    (RMSDQ.parse_pdbqt [sampleCALine] 0).length ≠
      min 0 (([sampleCALine] : List PLine).filterMap lineCoord).length := by
  decide

/-- A line with the CA marker but no parseable coordinate triple
contributes no coordinate. -/
theorem lineCoord_malformed_none (b : PLine)
    (hA : b.startsWithATOM = true) (hC : b.containsCA = true)
    (hbad : b.fields.length < 9 ∨ b.fields[6]? = some none ∨
      b.fields[7]? = some none ∨ b.fields[8]? = some none) :
    lineCoord b = none := by
  have h8len : b.fields.length < 9 → b.fields[8]? = none := by
    intro h
    rw [List.getElem?_eq_none]
    omega
  rcases h6 : b.fields[6]? with _ | (_ | x)
  · simp [lineCoord, hA, hC, h6]
  · simp [lineCoord, hA, hC, h6]
  · rcases h7 : b.fields[7]? with _ | (_ | y)
    · simp [lineCoord, hA, hC, h6, h7]
    · simp [lineCoord, hA, hC, h6, h7]
    · rcases h8 : b.fields[8]? with _ | (_ | z)
      · simp [lineCoord, hA, hC, h6, h7, h8]
      · simp [lineCoord, hA, hC, h6, h7, h8]
      · exfalso
        rcases hbad with hlen | hh | hh | hh
        · rw [h8len hlen] at h8; simp at h8
        · rw [hh] at h6; simp at h6
        · rw [hh] at h7; simp at h7
        · rw [hh] at h8; simp at h8

/-- Removing a non-contributing line anywhere in the stream leaves the
parse result unchanged. -/
theorem RMSDQ.parse_go_skip (b : PLine) (hb : lineCoord b = none) :
    ∀ (pre post : List PLine) (count n : Nat),
    RMSDQ.parse_pdbqt_go (pre ++ b :: post) count n =
      RMSDQ.parse_pdbqt_go (pre ++ post) count n := by
  intro pre
  induction pre with
  | nil =>
    intro post count n
    simp only [List.nil_append]
    rw [RMSDQ.parse_go_cons, hb]
  | cons l pr ih =>
    intro post count n
    simp only [List.cons_append]
    cases hc : lineCoord l with
    | none =>
      rw [RMSDQ.parse_go_cons_none (pr ++ b :: post) count n hc,
        RMSDQ.parse_go_cons_none (pr ++ post) count n hc]
      exact ih post count n
    | some c =>
      rw [RMSDQ.parse_go_cons_some (pr ++ b :: post) count n hc,
        RMSDQ.parse_go_cons_some (pr ++ post) count n hc]
      by_cases hge : count + 1 ≥ n
      · rw [if_pos hge, if_pos hge]
      · rw [if_neg hge, if_neg hge, ih post (count + 1) n]

/-- C10: an ATOM line carrying the CA marker but with fewer than nine
whitespace-separated fields, or with a coordinate field float() rejects,
is silently skipped, does not count toward the N-entry limit, and the
total Lean model shows no exception can propagate. -/
theorem C10_parse_pdbqt_skips_malformed (pre post : List PLine) (b : PLine)
    (n : Nat) (hA : b.startsWithATOM = true) (hC : b.containsCA = true)
    (hbad : b.fields.length < 9 ∨ b.fields[6]? = some none ∨
      b.fields[7]? = some none ∨ b.fields[8]? = some none) :
    RMSDQ.parse_pdbqt (pre ++ b :: post) n =
      RMSDQ.parse_pdbqt (pre ++ post) n :=
  RMSDQ.parse_go_skip b (lineCoord_malformed_none b hA hC hbad) pre post 0 n

/-- Witness for C10 at a concrete input: a two-field CA line is skipped. -/
theorem C10_witness :
    RMSDQ.parse_pdbqt ([sampleCALine] ++ shortCALine :: []) 5 =
      RMSDQ.parse_pdbqt ([sampleCALine] ++ []) 5 :=
  C10_parse_pdbqt_skips_malformed [sampleCALine] [] shortCALine 5 rfl rfl
    (Or.inl (by decide))

/-- The two textually identical parse_pdbqt loop bodies agree step by
step. -/
theorem parse_go_copies_agree :
    ∀ (lines : List PLine) (count n : Nat),
    RMSDQ.parse_pdbqt_go lines count n = RMSDaf.parse_pdbqt_go lines count n := by
  intro lines
  induction lines with
  | nil => intro count n; rfl
  | cons l rest ih =>
    intro count n
    unfold RMSDQ.parse_pdbqt_go RMSDaf.parse_pdbqt_go
    simp only [ih]

/-- C9: the copies of parse_pdbqt in RMSD_Q.py and RMSD_af.py are
extensionally equal, and so are the copies of compute_rmsd, both of
which gate identically and delegate to the same library superimposer. -/
theorem C9_copies_extensionally_equal :
    (∀ (lines : List PLine) (n : Nat),
      RMSDQ.parse_pdbqt lines n = RMSDaf.parse_pdbqt lines n) ∧
    (∀ (ref alt : List EPoint),
      RMSDQ.compute_rmsd ref alt = RMSDaf.compute_rmsd ref alt) :=
  ⟨fun lines n => parse_go_copies_agree lines 0 n, fun _ _ => rfl⟩

/-- C1: compute_rmsd returns the no-result sentinel whenever the two
coordinate lists have unequal lengths or either is empty, and the total
Lean model shows no exception is possible in those cases. -/
theorem C1_compute_rmsd_mismatch_none (ref alt : List EPoint)
    (h : ref.length ≠ alt.length ∨ ref = [] ∨ alt = []) :
    RMSDQ.compute_rmsd ref alt = none := by
  unfold RMSDQ.compute_rmsd
  rcases h with h | h | h
  · rw [if_pos (Or.inl h)]
  · subst h; simp
  · subst h
    rcases ref with _ | ⟨p, ps⟩
    · simp
    · simp

/-- Witness for C1 at a concrete input: reference of length one against
an empty candidate. -/
theorem C1_witness : RMSDQ.compute_rmsd [pZero] [] = none :=
  C1_compute_rmsd_mismatch_none [pZero] [] (Or.inr (Or.inr rfl))

/-- Decidable equality for extraction outcomes, used to evaluate the
extractor on concrete structures. -/
instance : DecidableEq (Except ExtractErr (List Coord)) := fun a b =>
  match a, b with
  | Except.ok x, Except.ok y =>
    if h : x = y then isTrue (congrArg Except.ok h)
    else isFalse (fun hh => h (Except.ok.inj hh))
  | Except.error e, Except.error f =>
    if h : e = f then isTrue (congrArg Except.error h)
    else isFalse (fun hh => h (Except.error.inj hh))
  | Except.ok _, Except.error _ => isFalse (fun hh => Except.noConfusion hh)
  | Except.error _, Except.ok _ => isFalse (fun hh => Except.noConfusion hh)

/-- Unfolding equation of extract_ca_atoms on a nonempty structure. -/
theorem extract_ca_atoms_cons (m : ModelT) (ms : List ModelT) (cid : String)
    (a b : Int) :
    extract_ca_atoms (m :: ms) cid a b =
      match find_chain m cid with
      | none => .error .chainNotFound
      | some c => .ok (chain_window_go c.residues a b) := rfl

/-- The windowed residue loop equals the filter-and-map description of
the claim: keep exactly the CA positions of in-window residues, in
iteration order. -/
theorem chain_window_filterMap (rs : List Residue) (a b : Int) :
    chain_window_go rs a b =
      rs.filterMap
        (fun r => if a ≤ r.seqNum ∧ r.seqNum ≤ b then r.ca else none) := by
  induction rs with
  | nil => simp [chain_window_go]
  | cons r rs ih =>
    by_cases hw : a ≤ r.seqNum ∧ r.seqNum ≤ b
    · cases hca : r.ca with
      | none => simp [chain_window_go, hw, hca, ih]
      | some c => simp [chain_window_go, hw, hca, ih]
    · simp [chain_window_go, hw, ih]

/-- The number of kept coordinates is at most the number of in-window
sequence numbers. -/
theorem filterMap_window_length_le (a b : Int) :
    ∀ rs : List Residue,
    (rs.filterMap
      (fun r => if a ≤ r.seqNum ∧ r.seqNum ≤ b then r.ca else none)).length ≤
    ((rs.map Residue.seqNum).filter
      (fun x => decide (a ≤ x ∧ x ≤ b))).length := by
  intro rs
  induction rs with
  | nil => simp
  | cons r rs ih =>
    by_cases hw : a ≤ r.seqNum ∧ r.seqNum ≤ b
    · cases hca : r.ca with
      | none =>
        simp only [List.filterMap_cons, List.map_cons, List.filter_cons, hca,
          if_pos hw, decide_eq_true hw]
        exact Nat.le_succ_of_le ih
      | some c =>
        simp only [List.filterMap_cons, List.map_cons, List.filter_cons, hca,
          if_pos hw, decide_eq_true hw, List.length_cons]
        exact Nat.succ_le_succ ih
    · simp only [List.filterMap_cons, List.map_cons, List.filter_cons,
        if_neg hw, decide_eq_false hw]
      exact ih

/-- A duplicate-free list of integers inside an inclusive window has at
most window-width members. -/
theorem nodup_window_card_le (ns : List Int) (a b : Int) (hab : a ≤ b)
    (hnd : ns.Nodup)
    (hmem : ∀ n ∈ ns, a ≤ n ∧ n ≤ b) : (ns.length : Int) ≤ b - a + 1 := by
  have hsub : ns.toFinset ⊆ Finset.Icc a b := by
    intro x hx
    rw [List.mem_toFinset] at hx
    exact Finset.mem_Icc.mpr (hmem x hx)
  have hcard : ns.toFinset.card = ns.length := List.toFinset_card_of_nodup hnd
  have hle := Finset.card_le_card hsub
  rw [hcard, Int.card_Icc] at hle
  omega

/-- C2: on a successfully found chain, the windowed extraction returns
exactly the CA positions of the in-window residues in iteration order,
silently skipping residues without a CA atom — amended: the output
length is bounded by the window width end minus start plus one only
when the sequence numbers of the residues of the chain are pairwise
distinct; with repeated numbers (insertion codes) the output can exceed
the width. -/
theorem C2_extract_ca_atoms_window (m : ModelT) (ms : List ModelT)
    (cid : String) (a b : Int) (c : Chain) (l : List Coord)
    (hfind : find_chain m cid = some c)
    (hok : extract_ca_atoms (m :: ms) cid a b = .ok l) :
    l = c.residues.filterMap
        (fun r => if a ≤ r.seqNum ∧ r.seqNum ≤ b then r.ca else none) ∧
    ((c.residues.map Residue.seqNum).Nodup → a ≤ b →
      (l.length : Int) ≤ b - a + 1) := by
  have hl : l = chain_window_go c.residues a b := by
    have heq : extract_ca_atoms (m :: ms) cid a b =
        .ok (chain_window_go c.residues a b) := by
      rw [extract_ca_atoms_cons, hfind]
    rw [heq] at hok
    injection hok with h
    exact h.symm
  constructor
  · rw [hl, chain_window_filterMap]
  · intro hnd hab
    rw [hl, chain_window_filterMap]
    have h1 := filterMap_window_length_le a b c.residues
    have hnd2 : ((c.residues.map Residue.seqNum).filter
        (fun x => decide (a ≤ x ∧ x ≤ b))).Nodup := hnd.filter _
    have hmem : ∀ n ∈ (c.residues.map Residue.seqNum).filter
        (fun x => decide (a ≤ x ∧ x ≤ b)), a ≤ n ∧ n ≤ b := by
      intro n hn
      have := (List.mem_filter.mp hn).2
      simpa using this
    have h2 := nodup_window_card_le _ a b hab hnd2 hmem
    omega

/-- A chain used by the C2 witness: three residues numbered 10, 11, 12
of which the middle one lacks a CA atom. -/
def wChain : Chain :=
  ⟨"A", [⟨10, [("CA", ((0 : ℚ), (0 : ℚ), (0 : ℚ)))]⟩, ⟨11, []⟩,
    ⟨12, [("CA", ((1 : ℚ), (0 : ℚ), (0 : ℚ)))]⟩]⟩

/-- Witness for C2 at a concrete input: the window 10 to 12 over wChain
keeps two coordinates. -/
theorem C2_witness :
    ([((0 : ℚ), (0 : ℚ), (0 : ℚ)), (1, 0, 0)] : List Coord) =
      wChain.residues.filterMap
        (fun r => if (10 : Int) ≤ r.seqNum ∧ r.seqNum ≤ 12 then r.ca
          else none) ∧
    ((wChain.residues.map Residue.seqNum).Nodup → (10 : Int) ≤ 12 →
      ((([((0 : ℚ), (0 : ℚ), (0 : ℚ)), (1, 0, 0)] : List Coord).length : Int) ≤
        12 - 10 + 1)) :=
  C2_extract_ca_atoms_window [wChain] [] "A" 10 12 wChain
    [((0 : ℚ), (0 : ℚ), (0 : ℚ)), (1, 0, 0)] (by decide) (by decide)

/-- A chain with two residues sharing the sequence number 10, as arises
from insertion codes. -/
def dupChain : Chain :=
  ⟨"A", [⟨10, [("CA", ((0 : ℚ), (0 : ℚ), (0 : ℚ)))]⟩,
    ⟨10, [("CA", ((1 : ℚ), (1 : ℚ), (1 : ℚ)))]⟩]⟩

/-- Counterexample to C2 as stated: with a repeated sequence number the
window of width one yields two coordinates, more than end minus start
plus one. -/
theorem C2_counterexample :
    extract_ca_atoms [[dupChain]] "A" 10 10 =
      .ok [((0 : ℚ), (0 : ℚ), (0 : ℚ)), (1, 1, 1)] ∧
    ¬ ((([((0 : ℚ), (0 : ℚ), (0 : ℚ)), (1, 1, 1)] : List Coord).length : Int) ≤
        10 - 10 + 1) := by
  decide

/-- A structure with no matching chain leaves the chain loop of
parse_real_pdb empty. -/
theorem parse_chains_no_match (cid : String) (a b : Int) :
    ∀ cs : List Chain, (∀ ch ∈ cs, ch.id ≠ cid) →
    parse_real_pdb_chains cs cid a b = [] := by
  intro cs
  induction cs with
  | nil => intro _; rfl
  | cons c cs ih =>
    intro h
    have hc : ¬ c.id = cid := h c (by simp)
    simp only [parse_real_pdb_chains, if_neg hc, List.nil_append]
    exact ih (fun ch hch => h ch (by simp [hch]))

/-- A structure with no matching chain in any model makes parse_real_pdb
return the empty list. -/
theorem parse_real_pdb_no_match (cid : String) (a b : Int) :
    ∀ s : StructureT, (∀ mo ∈ s, ∀ ch ∈ mo, ch.id ≠ cid) →
    RMSDQ.parse_real_pdb s cid a b = [] := by
  intro s
  induction s with
  | nil => intro _; rfl
  | cons m ms ih =>
    intro h
    simp only [RMSDQ.parse_real_pdb]
    rw [parse_chains_no_match cid a b m (h m (by simp)),
      ih (fun mo hmo ch hch => h mo (by simp [hmo]) ch hch)]
    rfl

/-- C4: a chain identifier matching no chain — amended: only
extract_ca_atoms fails with the distinct ChainNotFound outcome;
parse_real_pdb instead silently returns the ordinary empty coordinate
list. -/
theorem C4_missing_chain (m : ModelT) (ms : List ModelT) (cid : String)
    (a b : Int) :
    (find_chain m cid = none →
      extract_ca_atoms (m :: ms) cid a b =
        .error ExtractErr.chainNotFound) ∧
    ((∀ mo ∈ m :: ms, ∀ ch ∈ mo, ch.id ≠ cid) →
      RMSDQ.parse_real_pdb (m :: ms) cid a b = []) := by
  constructor
  · intro h
    rw [extract_ca_atoms_cons, h]
  · intro h
    exact parse_real_pdb_no_match cid a b (m :: ms) h

/-- A chain named B, used to exhibit a missing chain A. -/
def chainB : Chain := ⟨"B", [⟨1, [("CA", ((2 : ℚ), (2 : ℚ), (2 : ℚ)))]⟩]⟩

/-- Witness for C4 at a concrete input: a two-model structure holding
only chain B, queried for chain A. -/
theorem C4_witness :
    extract_ca_atoms [[chainB], [chainB]] "A" 0 5 =
      .error ExtractErr.chainNotFound ∧
    RMSDQ.parse_real_pdb [[chainB], [chainB]] "A" 0 5 = [] :=
  ⟨(C4_missing_chain [chainB] [[chainB]] "A" 0 5).1 (by decide),
    (C4_missing_chain [chainB] [[chainB]] "A" 0 5).2 (by decide)⟩

/-- Counterexample to C4 as stated: parse_real_pdb on a structure
without chain A returns the ordinary empty list rather than a distinct
error outcome, unlike extract_ca_atoms on the same input. -/
theorem C4_counterexample :
    RMSDQ.parse_real_pdb [[chainB]] "A" 1 2 = ([] : List Coord) ∧
    extract_ca_atoms [[chainB]] "A" 1 2 =
      .error ExtractErr.chainNotFound := by
  decide

/-- C5: consumption of models — amended: extract_ca_atoms depends only
on the first model of the structure, but parse_real_pdb concatenates the
windowed coordinates contributed by every model, so later models of a
multi-model structure do reach its output. -/
theorem C5_model_consumption :
    (∀ (m : ModelT) (ms : List ModelT) (cid : String) (a b : Int),
      extract_ca_atoms (m :: ms) cid a b = extract_ca_atoms [m] cid a b) ∧
    (∀ (s t : StructureT) (cid : String) (a b : Int),
      RMSDQ.parse_real_pdb (s ++ t) cid a b =
        RMSDQ.parse_real_pdb s cid a b ++
          RMSDQ.parse_real_pdb t cid a b) := by
  constructor
  · intro m ms cid a b
    rfl
  · intro s t cid a b
    induction s with
    | nil => rfl
    | cons m s ih =>
      simp only [List.cons_append, RMSDQ.parse_real_pdb, List.append_eq, ih,
        List.append_assoc]

/-- First model of the C5 counterexample structure. -/
def chainA1 : Chain := ⟨"A", [⟨1, [("CA", ((0 : ℚ), (0 : ℚ), (0 : ℚ)))]⟩]⟩

/-- Second model of the C5 counterexample structure. -/
def chainA2 : Chain := ⟨"A", [⟨1, [("CA", ((9 : ℚ), (9 : ℚ), (9 : ℚ)))]⟩]⟩

/-- Counterexample to C5 as stated: on a two-model structure,
parse_real_pdb returns coordinates from both models, differing from the
extraction over the first model alone. -/
theorem C5_counterexample :
    RMSDQ.parse_real_pdb [[chainA1], [chainA2]] "A" 1 1 =
      [((0 : ℚ), (0 : ℚ), (0 : ℚ)), (9, 9, 9)] ∧
    RMSDQ.parse_real_pdb [[chainA1]] "A" 1 1 =
      [((0 : ℚ), (0 : ℚ), (0 : ℚ))] ∧
    RMSDQ.parse_real_pdb [[chainA1], [chainA2]] "A" 1 1 ≠
      RMSDQ.parse_real_pdb [[chainA1]] "A" 1 1 := by
  decide

/-- C7: whatever orthonormal SVD factors the covariance decomposition
yields, the corrected Kabsch rotation is a proper rotation: orthonormal
with determinant exactly plus one, the sign correction firing precisely
when the naive determinant is negative. -/
theorem C7_kabsch_proper_rotation (U V : Mat3)
    (hU : U.transpose * U = 1) (hV : V.transpose * V = 1) :
    (kabsch_rotation U V).transpose * kabsch_rotation U V = 1 ∧
    (kabsch_rotation U V).det = 1 := by
  have hu2 : U.det * U.det = 1 := by
    have h := congrArg Matrix.det hU
    rwa [Matrix.det_mul, Matrix.det_transpose, Matrix.det_one] at h
  have hv2 : V.det * V.det = 1 := by
    have h := congrArg Matrix.det hV
    rwa [Matrix.det_mul, Matrix.det_transpose, Matrix.det_one] at h
  have hu := mul_self_eq_one_iff.mp hu2
  have hv := mul_self_eq_one_iff.mp hv2
  have hdd : kabsch_d U V * kabsch_d U V = 1 := by
    unfold kabsch_d
    split <;> norm_num
  have hdetD : (Matrix.diagonal ![1, 1, kabsch_d U V]).det = kabsch_d U V := by
    rw [Matrix.det_diagonal]
    simp [Fin.prod_univ_three]
  have hDD : (Matrix.diagonal ![1, 1, kabsch_d U V]).transpose *
      Matrix.diagonal ![1, 1, kabsch_d U V] = 1 := by
    rw [Matrix.diagonal_transpose, Matrix.diagonal_mul_diagonal]
    have hvec : (fun i => ![1, 1, kabsch_d U V] i * ![1, 1, kabsch_d U V] i) =
        (fun _ : Fin 3 => (1 : ℝ)) := by
      funext i
      fin_cases i <;> simp [hdd]
    rw [hvec]
    exact Matrix.diagonal_one
  have hVU : (V * U.transpose).det = V.det * U.det := by
    rw [Matrix.det_mul, Matrix.det_transpose]
  have hprod : V.det * U.det = 1 ∨ V.det * U.det = -1 := by
    rcases hu with h1 | h1 <;> rcases hv with h2 | h2 <;>
      rw [h1, h2] <;> norm_num
  have hdval : kabsch_d U V * (V.det * U.det) = 1 := by
    unfold kabsch_d
    rcases hprod with hp | hp
    · rw [hVU, hp, if_neg (by norm_num : ¬ (1 : ℝ) < 0)]
      norm_num
    · rw [hVU, hp, if_pos (by norm_num : (-1 : ℝ) < 0)]
      norm_num
  constructor
  · unfold kabsch_rotation
    have hUU : U * U.transpose = 1 := Matrix.mul_eq_one_comm.mp hU
    have hVcancel : ∀ X : Mat3, V.transpose * (V * X) = X := by
      intro X
      rw [← Matrix.mul_assoc, hV, Matrix.one_mul]
    have hDcancel : ∀ X : Mat3,
        (Matrix.diagonal ![1, 1, kabsch_d U V]).transpose *
          (Matrix.diagonal ![1, 1, kabsch_d U V] * X) = X := by
      intro X
      rw [← Matrix.mul_assoc, hDD, Matrix.one_mul]
    rw [Matrix.transpose_mul, Matrix.transpose_mul, Matrix.transpose_transpose]
    simp only [Matrix.mul_assoc]
    rw [hVcancel, hDcancel, hUU]
  · unfold kabsch_rotation
    rw [Matrix.det_mul, Matrix.det_mul, hdetD, Matrix.det_transpose]
    calc V.det * kabsch_d U V * U.det
        = kabsch_d U V * (V.det * U.det) := by ring
      _ = 1 := hdval

/-- Witness for C7 at a concrete input: identity SVD factors. -/
theorem C7_witness :
    ((1 : Mat3).transpose * 1 = 1) ∧
    ((kabsch_rotation 1 1).transpose * kabsch_rotation 1 1 = 1 ∧
      (kabsch_rotation 1 1).det = 1) :=
  ⟨by simp, C7_kabsch_proper_rotation 1 1 (by simp) (by simp)⟩

/-- Zipping two equal-length constant lists gives a constant list of
pairs. -/
theorem zip_replicate_same {α β : Type} (x : α) (y : β) :
    ∀ n : Nat, (List.replicate n x).zip (List.replicate n y) =
      List.replicate n (x, y) := by
  intro n
  induction n with
  | zero => rfl
  | succ n ih => simp [List.replicate_succ, ih]

/-- The centroid of a constant nonempty point list is the repeated
point. -/
theorem centroid_replicate (n : Nat) (hn : n ≠ 0) (p : EPoint) :
    centroid (List.replicate n p) = p := by
  funext j
  unfold centroid
  rw [List.map_replicate, List.sum_replicate, List.length_replicate,
    nsmul_eq_mul]
  exact mul_div_cancel_left₀ (p j) (Nat.cast_ne_zero.mpr hn)

/-- Centering a constant point list yields the zero list. -/
theorem centered_replicate (n : Nat) (hn : n ≠ 0) (p : EPoint) :
    centered (List.replicate n p) = List.replicate n 0 := by
  unfold centered
  rw [centroid_replicate n hn p, List.map_replicate, sub_self]

/-- For constant point lists the mean squared deviation vanishes under
every rotation. -/
theorem msd_degenerate (R : Mat3) (n : Nat) (hn : n ≠ 0) (p q : EPoint) :
    msd R (List.replicate n p) (List.replicate n q) = 0 := by
  unfold msd
  rw [centered_replicate n hn p, centered_replicate n hn q,
    zip_replicate_same 0 0 n, List.map_replicate]
  have h0 : sqnorm ((0 : EPoint) - R.mulVec 0) = 0 := by
    unfold sqnorm
    simp
  rw [List.sum_replicate]
  have h1 : sqnorm (((0 : EPoint), (0 : EPoint)).1 -
      R.mulVec ((0 : EPoint), (0 : EPoint)).2) = 0 := h0
  rw [h1, smul_zero, zero_div]

/-- C8: for degenerate equal-length non-empty inputs — length one, or
all points of each list identical — compute_rmsd returns the value
zero, the identity rotation attaining a zero mean squared deviation,
with no error possible in the total model. -/
theorem C8_degenerate_rmsd_zero (ref cand : List EPoint)
    (hlen : ref.length = cand.length) (hne : ref ≠ [])
    (hdeg : ref.length = 1 ∨
      ((∀ x ∈ ref, ∀ y ∈ ref, x = y) ∧ (∀ x ∈ cand, ∀ y ∈ cand, x = y))) :
    RMSDQ.compute_rmsd ref cand = some 0 ∧ msd 1 ref cand = 0 := by
  have hn0 : ref.length ≠ 0 := fun h => hne (List.length_eq_zero.mp h)
  obtain ⟨p, hp⟩ : ∃ p, ref = List.replicate ref.length p := by
    rcases hdeg with h1 | ⟨h2, _⟩
    · rcases ref with _ | ⟨x, xs⟩
      · simp at h1
      · have hxs : xs = [] := by
          have : xs.length = 0 := by simpa using h1
          exact List.length_eq_zero.mp this
        subst hxs
        exact ⟨x, rfl⟩
    · rcases ref with _ | ⟨x, xs⟩
      · exact absurd rfl hne
      · exact ⟨x, List.eq_replicate_of_mem
          (fun b hb => h2 b hb x (by simp))⟩
  obtain ⟨q, hq⟩ : ∃ q, cand = List.replicate cand.length q := by
    rcases hdeg with h1 | ⟨_, h2⟩
    · rcases cand with _ | ⟨x, xs⟩
      · rw [hlen] at h1; simp at h1
      · have hxs : xs = [] := by
          have : xs.length = 0 := by
            have := hlen.symm.trans h1
            simpa using this
          exact List.length_eq_zero.mp this
        subst hxs
        exact ⟨x, rfl⟩
    · rcases cand with _ | ⟨x, xs⟩
      · rw [hlen] at hn0; exact absurd rfl hn0
      · exact ⟨x, List.eq_replicate_of_mem
          (fun b hb => h2 b hb x (by simp))⟩
  have hmsd : ∀ R : Mat3, msd R ref cand = 0 := by
    intro R
    rw [hp, hq, ← hlen]
    exact msd_degenerate R ref.length hn0 p q
  refine ⟨?_, hmsd 1⟩
  unfold RMSDQ.compute_rmsd
  rw [if_neg (by push_neg; exact ⟨hlen, hn0⟩)]
  have hset : {x : ℝ | ∃ R : Mat3, IsProperRot R ∧ x = msd R ref cand} =
      {0} := by
    ext x
    simp only [Set.mem_setOf_eq, Set.mem_singleton_iff]
    constructor
    · rintro ⟨R, _, hx⟩
      rw [hx, hmsd R]
    · intro hx
      exact ⟨1, ⟨by simp, by simp⟩, by rw [hx, hmsd 1]⟩
  rw [superimposerRms, hset, csInf_singleton, Real.sqrt_zero]

/-- Witness for C8 at a concrete input: a single point pair. -/
theorem C8_witness :
    RMSDQ.compute_rmsd [pZero] [pFive] = some 0 ∧ msd 1 [pZero] [pFive] = 0 :=
  C8_degenerate_rmsd_zero [pZero] [pFive] rfl (by simp) (Or.inl rfl)

/-- C6 — amended: compute_rmsd itself only reads its inputs and yields
a scalar, but the alignment step of vis_rmde main installs transformed
coordinates into the predicted structure: whenever the reference and
candidate CA positions differ, the coordinate state of the structure
after the apply call differs from the state before it. -/
theorem C6_vis_apply_overwrites (r c a : EPoint) (hrc : r ≠ c) :
    vis_align_apply_n1 r c [a] ≠ [a] := by
  intro heq
  have heq2 : applyRT 1 (r - c) a = a := by
    rw [show vis_align_apply_n1 r c [a] = [applyRT 1 (r - c) a] from rfl]
      at heq
    injection heq
  unfold applyRT at heq2
  rw [Matrix.one_mulVec] at heq2
  apply hrc
  have h3 : a + (r - c) = a + 0 := by rw [add_zero]; exact heq2
  exact sub_eq_zero.mp (add_left_cancel h3)

/-- Witness for C6 at a concrete input: the structure state holding the
candidate point is rewritten by the apply step. -/
theorem C6_witness : vis_align_apply_n1 pZero pFive [pFive] ≠ [pFive] :=
  C6_vis_apply_overwrites pZero pFive pFive
    (by
      intro h
      have h0 := congrFun h 0
      norm_num [pZero, pFive] at h0)

/-- The point with all coordinates one. -/
def pOne : EPoint := fun _ => 1

/-- Counterexample to C6 as stated: a concrete alignment step of
vis_rmde main leaves the predicted structure with coordinates different
from the ones it held when the candidate list was extracted. -/
theorem C6_counterexample :
    vis_align_apply_n1 pOne pFive [pFive, pFive] ≠ [pFive, pFive] := by
  intro h
  rw [show vis_align_apply_n1 pOne pFive [pFive, pFive] =
      [applyRT 1 (pOne - pFive) pFive, applyRT 1 (pOne - pFive) pFive]
    from rfl] at h
  injection h with h1 _
  unfold applyRT at h1
  rw [Matrix.one_mulVec] at h1
  have h2 := congrFun h1 0
  norm_num [pOne, pFive, Pi.add_apply, Pi.sub_apply] at h2
